import Mathlib

/-!
Shallow embedding of `src/backend/crawler/services/crawler_service.py`
(the `CrawlerConfig`, `CrawlStats` and `WebCrawler` classes) in Lean 4.

External collaborators are an explicit environment of pure functions
(`CrawlEnv`): the HTTP transport plus HTML parse (`requests.get` and
`BeautifulSoup`, where `none` models a raised exception), the
base-relative resolver `urllib.parse.urljoin` (`none` models its
`ValueError`, raised e.g. on an unmatched-bracket netloc in the href),
the `mimetypes.guess_extension` table, and Python's Unicode-table
driven `str.lower`.

`urlparse`'s `netloc`/`path` extraction is embedded directly after
CPython `urllib.parse.urlsplit`: the URL is first stripped of leading
C0-control/space characters and of every tab, CR and LF, and the
extracted netloc raises `ValueError("Invalid IPv6 URL")` when it holds
a `[` without `]` or a `]` without `[` (`urlparseRaises`).  This raise
is live in the crawler: `is_allowed_domain` calls `urlparse` outside
the `try` of `WebCrawler.crawl`, and `CrawlStats.record` calls it
after the `total_urls`/`errors`/`status_code_counts` updates and
before `results.append`, so a raise there aborts the whole crawl with
a partially updated stats object.  Exceptions are therefore threaded
as `Except CrawlerState CrawlerState`: `.error` is the crawl aborting
with the mutated-in-place state, `.ok` is the loop continuing.

The stats broadcast (`async_to_sync(self.broadcast_stats)()`, whose
channel-layer-absent case is guarded by an early `return`) is the
notification sink the design treats as an external best-effort
collaborator; it reads the stats and is modelled as effect-free for
the crawl state.
-/

namespace Crawler

/-- Python `str.split(sep)` for a one-character separator, on character
lists: `"a..b".split "."` gives `["a", "", "b"]`, and a string without
the separator yields the one-element list holding the whole string. -/
def pySplit (sep : Char) : List Char → List (List Char)
  | [] => [[]]
  | c :: t =>
    match pySplit sep t with
    | [] => [[]]
    | h :: r => if c = sep then [] :: h :: r else (c :: h) :: r

/-- The piece of the URL after its last `.` (the whole URL when it has
no `.`), i.e. Python's `url.split(".")[-1]` on the raw URL string. -/
def lastDotPiece (url : String) : String :=
  String.mk ((pySplit '.' url.data).getLastD [])

/-- Python `str.startswith`, as a structural prefix test on character
lists. -/
def pyStartswith (s pre : String) : Bool :=
  pre.data.isPrefixOf s.data

/-- `urlsplit`'s input sanitisation: strip leading C0-control/space
characters (`_WHATWG_C0_CONTROL_OR_SPACE`), then remove every tab, CR
and LF (`_UNSAFE_URL_BYTES_TO_REMOVE`). -/
def sanitizeUrl (url : String) : List Char :=
  (url.data.dropWhile fun c => c.toNat ≤ 32).filter
    fun c => ¬ (c = '\t' ∨ c = '\r' ∨ c = '\n')

/-- Characters CPython's `urlsplit` admits inside a URL scheme
(`scheme_chars`: letters, digits, `+`, `-`, `.`). -/
def schemeChar (c : Char) : Bool :=
  c.isAlpha || c.isDigit || c = '+' || c = '-' || c = '.'

/-- Whether the sanitised URL opens with a syntactically valid scheme
followed by `:` — `urlsplit`'s test `i > 0 and url[0].isascii() and
url[0].isalpha()` with every character of `url[1:i]` in `scheme_chars`,
`i` the index of the first `:`. -/
def hasScheme (l : List Char) : Bool :=
  match l.findIdx? (· = ':') with
  | none => false
  | some i =>
    match l with
    | [] => false
    | c0 :: _ => decide (0 < i) && c0.isAlpha && ((l.take i).drop 1).all schemeChar

/-- The URL with its scheme and the following `:` removed when a valid
scheme is present, as `urlsplit` rebinds `url = url[i+1:]`. -/
def dropScheme (l : List Char) : List Char :=
  match l.findIdx? (· = ':') with
  | none => l
  | some i => if hasScheme l then l.drop (i + 1) else l

/-- The URL's scheme, lower-cased (schemes are ASCII by construction),
or `""` — `urlsplit`'s `scheme` result. -/
def schemeOf (url : String) : String :=
  let l := sanitizeUrl url
  match l.findIdx? (· = ':') with
  | none => ""
  | some i =>
    if hasScheme l then
      String.mk ((l.take i).map fun c =>
        if 65 ≤ c.toNat ∧ c.toNat ≤ 90 then Char.ofNat (c.toNat + 32) else c)
    else ""

/-- `urlparse(url).netloc`: after the scheme, when the remainder begins
with `//`, the characters up to the first of `/`, `?` or `#`; otherwise
empty. -/
def netlocOf (url : String) : String :=
  match dropScheme (sanitizeUrl url) with
  | '/' :: '/' :: rest =>
    String.mk (rest.takeWhile fun c => !(c = '/' || c = '?' || c = '#'))
  | _ => ""

/-- Whether `urlparse(url)` raises `ValueError("Invalid IPv6 URL")`:
the extracted netloc holds a `[` without `]` or a `]` without `[`
(CPython `urlsplit`; the further bracketed-host validation of newer
CPython concerns only netlocs that pass this check). -/
def urlparseRaises (url : String) : Bool :=
  let n := (netlocOf url).data
  ('[' ∈ n ∧ ']' ∉ n) ∨ (']' ∈ n ∧ '[' ∉ n)

/-- The remainder of the URL after the scheme and the netloc, before
fragment/query stripping. -/
def afterNetloc (url : String) : List Char :=
  match dropScheme (sanitizeUrl url) with
  | '/' :: '/' :: rest => rest.dropWhile fun c => !(c = '/' || c = '?' || c = '#')
  | l => l

/-- CPython `urllib.parse._splitparams`, applied by `urlparse` when the
path carries a `;` parameter section: cut at the first `;` of the last
`/`-segment. -/
def splitParams (p : List Char) : List Char :=
  if '/' ∈ p then
    let seg := (p.reverse.takeWhile (· ≠ '/')).reverse
    let pre := p.take (p.length - seg.length)
    if ';' ∈ seg then pre ++ seg.takeWhile (· ≠ ';') else p
  else p.takeWhile (· ≠ ';')

/-- The schemes for which `urlparse` splits `;`-parameters off the path
(CPython `uses_params`). -/
def usesParams : List String :=
  ["", "ftp", "hdl", "prospero", "http", "imap", "https", "shttp", "rtsp",
   "rtspu", "sip", "sips", "mms", "sftp", "tel"]

/-- `urlparse(url).path`: strip the fragment (first `#`), then the query
(first `?`), then `;`-parameters when the scheme uses them. -/
def pathOf (url : String) : String :=
  let p := ((afterNetloc url).takeWhile (· ≠ '#')).takeWhile (· ≠ '?')
  if schemeOf url ∈ usesParams ∧ ';' ∈ p then String.mk (splitParams p)
  else String.mk p

/-- `CrawlerConfig`: max depth, allowed domains, blacklisted
extensions (`crawler_service.py`, `CrawlerConfig.__init__`). -/
structure CrawlerConfig where
  max_depth : Nat
  allowed_domains : List String
  blacklist : List String
deriving Repr, DecidableEq

/-- `CrawlerConfig.is_allowed_domain`: `True` without parsing when no
domain restriction is set; otherwise `urlparse(url).netloc` is
computed — raising (`.error`) on an invalid-IPv6 netloc — and tested
for membership in `allowed_domains`. -/
def is_allowed_domainE (cfg : CrawlerConfig) (url : String) :
    Except Unit Bool :=
  if cfg.allowed_domains = [] then .ok true
  else if urlparseRaises url then .error ()
  else .ok (netlocOf url ∈ cfg.allowed_domains)

/-- The Boolean `is_allowed_domain` returns when it does not raise. -/
def allowedDomain (cfg : CrawlerConfig) (url : String) : Bool :=
  if cfg.allowed_domains = [] then true
  else netlocOf url ∈ cfg.allowed_domains

/-- A page as the fetch/parse collaborators deliver it to the crawl
loop: status code and body length from `requests.get`, the stripped
`<title>` text (`""` when absent) and the `href` attributes of the
page's `<a href=...>` tags from `BeautifulSoup`, in document order. -/
structure Page where
  status_code : Int
  content_length : Nat
  title : String
  hrefs : List String
deriving Repr, DecidableEq

/-- The external collaborators of the crawler, as pure functions:
`fetch` is `requests.get` together with the `BeautifulSoup` parse
(`none` models an exception raised by transport or parsing);
`urljoin` is `urllib.parse.urljoin` (`none` models its `ValueError`);
`guessExtension` is `mimetypes.guess_extension` (`none` models
Python's `None`); `lower` is Python's Unicode-table `str.lower`. -/
structure CrawlEnv where
  fetch : String → Option Page
  urljoin : String → String → Option String
  guessExtension : String → Option String
  lower : String → String

/-- `CrawlerConfig.is_blacklisted`'s derived extension:
`mimetypes.guess_extension(urlparse(url).path)` and, when that is falsy
(`None` or `""`), `"." + url.split(".")[-1]` on the raw URL. -/
def derivedExt (env : CrawlEnv) (url : String) : String :=
  match env.guessExtension (pathOf url) with
  | some e => if e = "" then "." ++ lastDotPiece url else e
  | none => "." ++ lastDotPiece url

/-- `CrawlerConfig.is_blacklisted`: the lower-cased derived extension
is a member of the blacklist (the blacklist entries are never
lower-cased). -/
def CrawlerConfig.is_blacklisted (cfg : CrawlerConfig) (env : CrawlEnv)
    (url : String) : Bool :=
  env.lower (derivedExt env url) ∈ cfg.blacklist

/-- One entry of `CrawlStats.results` (`crawler_service.py`,
`CrawlStats.record`'s appended dict). -/
structure PageRecord where
  url : String
  status : Int
  size : Nat
  title : String
deriving Repr, DecidableEq

/-- Counter dictionaries (`defaultdict(int)`): association lists in
insertion order, as Python dicts preserve it. -/
def bump {α : Type} [DecidableEq α] : List (α × Nat) → α → List (α × Nat)
  | [], k => [(k, 1)]
  | (a, n) :: t, k => if a = k then (a, n + 1) :: t else (a, n) :: bump t k

/-- `CrawlStats`: totals, per-status and per-domain counters, and the
ordered result log. -/
structure CrawlStats where
  total_urls : Nat
  errors : Nat
  status_code_counts : List (Int × Nat)
  domain_counts : List (String × Nat)
  results : List PageRecord
deriving Repr, DecidableEq

/-- `CrawlStats.__init__`: everything empty. -/
def CrawlStats.init : CrawlStats :=
  ⟨0, 0, [], [], []⟩

/-- A completed `CrawlStats.record(url, status_code, content_length,
title)` call: all five mutations, in source order. -/
def CrawlStats.record (s : CrawlStats) (url : String) (status_code : Int)
    (content_length : Nat) (title : String) : CrawlStats where
  total_urls := s.total_urls + 1
  errors := if ¬ (200 ≤ status_code ∧ status_code < 300) then s.errors + 1 else s.errors
  status_code_counts := bump s.status_code_counts status_code
  domain_counts := bump s.domain_counts (netlocOf url)
  results := s.results ++ [⟨url, status_code, content_length, title⟩]

/-- The mutations a raising `record` call leaves behind: `total_urls`,
`errors` and `status_code_counts` are updated in place before
`urlparse(url).netloc` raises on line 128, so `domain_counts` and
`results` stay untouched. -/
def CrawlStats.recordAborted (s : CrawlStats) (status_code : Int) :
    CrawlStats where
  total_urls := s.total_urls + 1
  errors := if ¬ (200 ≤ status_code ∧ status_code < 300) then s.errors + 1 else s.errors
  status_code_counts := bump s.status_code_counts status_code
  domain_counts := s.domain_counts
  results := s.results

/-- `CrawlStats.record` as executed: completes — also bumping
`domain_counts[urlparse(url).netloc]` — unless `urlparse(url)` raises,
in which case the partial mutations are left behind and the exception
propagates. -/
def CrawlStats.recordE (s : CrawlStats) (url : String) (status_code : Int)
    (content_length : Nat) (title : String) : Except CrawlStats CrawlStats :=
  if urlparseRaises url then .error (s.recordAborted status_code)
  else .ok (s.record url status_code content_length title)

/-- The mutable state of one `WebCrawler.crawl` run: the visited set,
the stats object, the BFS queue of `(url, depth)` pairs, and a ghost
log of the URLs passed to `requests.get`, in call order (it records
exactly where the source calls `requests.get`). -/
structure CrawlerState where
  visited : List String
  stats : CrawlStats
  queue : List (String × Nat)
  fetched : List String
deriving Repr, DecidableEq

/-- `WebCrawler.__init__` plus `crawl`'s seeding of the queue with
`(start_url, 0)`. -/
def initState (start_url : String) : CrawlerState :=
  ⟨[], CrawlStats.init, [(start_url, 0)], []⟩

/-- The `except` block (lines 206–209): record the
`(url, 0, 0, "ERROR")` sentinel; when that record itself raises in
`urlparse` the exception propagates and the crawl aborts. -/
def exceptBlock (st : CrawlerState) (u : String) :
    Except CrawlerState CrawlerState :=
  match st.stats.recordE u 0 0 "ERROR" with
  | .error abortedStats => .error { st with stats := abortedStats }
  | .ok full => .ok { st with stats := full }

/-- The link loop (lines 202–205): resolve each `href` with `urljoin`
in order, appending each resolved link that starts with `"http"` to
the queue at `depth + 1`; a raising `urljoin` jumps to the `except`
block, keeping the children already appended. -/
def processLinks (env : CrawlEnv) (u : String) (d : Nat) :
    CrawlerState → List String → Except CrawlerState CrawlerState
  | st, [] => .ok st
  | st, h :: hs =>
    match env.urljoin u h with
    | none => exceptBlock st u
    | some href =>
      processLinks env u d
        (if pyStartswith href "http" then
          { st with queue := st.queue ++ [(href, d + 1)] }
        else st) hs

/-- The `try` block (lines 187–205) on a state whose fetch log already
holds the attempted URL: a raising fetch/parse goes to the `except`
block; a response is recorded (a raising record also goes to the
`except` block, which then re-raises); children are processed exactly
when `depth < max_depth` and the status is `200`. -/
def tryBlock (cfg : CrawlerConfig) (env : CrawlEnv) (u : String) (d : Nat)
    (st : CrawlerState) : Except CrawlerState CrawlerState :=
  match env.fetch u with
  | none => exceptBlock st u
  | some page =>
    match st.stats.recordE u page.status_code page.content_length page.title with
    | .error abortedStats => exceptBlock { st with stats := abortedStats } u
    | .ok full =>
      let st' := { st with stats := full }
      if d < cfg.max_depth ∧ page.status_code = 200 then
        processLinks env u d st' page.hrefs
      else .ok st'

/-- One iteration of `WebCrawler.crawl`'s `while queue:` loop body
(identity on an empty queue): pop the front; drop it when visited or
too deep; mark visited; evaluate the filter — a raising
`is_allowed_domain` aborts (it is outside the `try`), a URL that is
not allowed AND blacklisted is silently skipped; otherwise run the
`try` block with the URL appended to the fetch log. -/
def crawlStep (cfg : CrawlerConfig) (env : CrawlEnv) (s : CrawlerState) :
    Except CrawlerState CrawlerState :=
  match s.queue with
  | [] => .ok s
  | (current_url, depth) :: rest =>
    if current_url ∈ s.visited ∨ depth > cfg.max_depth then
      .ok { s with queue := rest }
    else
      let s₁ := { s with visited := current_url :: s.visited, queue := rest }
      match is_allowed_domainE cfg current_url with
      | .error _ => .error s₁
      | .ok a =>
        if ¬ a ∧ cfg.is_blacklisted env current_url then .ok s₁
        else tryBlock cfg env current_url depth
          { s₁ with fetched := s₁.fetched ++ [current_url] }

/-- The `while queue:` loop, fuel-indexed: runs `crawlStep` until the
queue is empty or the fuel runs out; an abort (`.error`) propagates
out of `crawl`. -/
def crawlLoop (cfg : CrawlerConfig) (env : CrawlEnv) :
    Nat → CrawlerState → Except CrawlerState CrawlerState
  | 0, s => .ok s
  | fuel + 1, s =>
    match s.queue with
    | [] => .ok s
    | _ :: _ => (crawlStep cfg env s).bind (crawlLoop cfg env fuel)

/-- `WebCrawler.crawl(start_url)` on a fresh `WebCrawler`: `.ok` is a
run still in progress or completed (completed when the queue is
empty), `.error` is the crawl aborted by a propagating exception. -/
def crawlRun (cfg : CrawlerConfig) (env : CrawlEnv) (fuel : Nat)
    (start_url : String) : Except CrawlerState CrawlerState :=
  crawlLoop cfg env fuel (initState start_url)

/-- The crawler state an outcome carries — the returned state of an
`.ok` run, or the in-place mutated state a propagating exception
leaves behind. -/
def outState : Except CrawlerState CrawlerState → CrawlerState
  | .ok s => s
  | .error s => s

/-- Whether the outcome is an aborted crawl. -/
def isAborted : Except CrawlerState CrawlerState → Bool
  | .ok _ => false
  | .error _ => true

/-- The engine's silent-skip test: the filter evaluated without
raising, the URL is not in an allowed domain, and it is blacklisted
(`not is_allowed_domain(url) and is_blacklisted(url)`). -/
def skips (cfg : CrawlerConfig) (env : CrawlEnv) (url : String) : Bool :=
  match is_allowed_domainE cfg url with
  | .error _ => false
  | .ok a => !a && cfg.is_blacklisted env url

/-- The children a fully resolving link list contributes: resolved
hrefs kept when starting with `"http"`, at `depth + 1`. -/
def keptChildren (env : CrawlEnv) (u : String) (d : Nat)
    (hrefs : List String) : List (String × Nat) :=
  ((hrefs.filterMap (env.urljoin u)).filter
    fun href => pyStartswith href "http").map fun href => (href, d + 1)

/-- Decidable equality of `Except` values, for concrete evaluation of
run outcomes and filter results. -/
instance {ε α : Type} [DecidableEq ε] [DecidableEq α] :
    DecidableEq (Except ε α) := fun a b =>
  match a, b with
  | .ok x, .ok y => decidable_of_iff (x = y) (by simp)
  | .error x, .error y => decidable_of_iff (x = y) (by simp)
  | .ok _, .error _ => isFalse (fun h => by cases h)
  | .error _, .ok _ => isFalse (fun h => by cases h)

/-! ## Concrete test fixtures -/

/-- The fragment of Python's `str.lower` the fixtures exercise: ASCII
`A`–`Z` and Latin-1 `À`–`Þ` (excluding `×`) map by `+32`, exactly as
Python's table does on these ranges; characters without a lower-case
mapping (such as `𝐀`, which Python's `lower` leaves unchanged) are
fixed. -/
def fixtureLowerChar (c : Char) : Char :=
  if 65 ≤ c.toNat ∧ c.toNat ≤ 90 then Char.ofNat (c.toNat + 32)
  else if 192 ≤ c.toNat ∧ c.toNat ≤ 222 ∧ c.toNat ≠ 215 then
    Char.ofNat (c.toNat + 32)
  else c

/-- String-level fixture lower-casing. -/
def fixtureLower (s : String) : String :=
  String.mk (s.data.map fixtureLowerChar)

/-- A deterministic environment for concrete runs: no MIME guess ever
fires, absolute hrefs resolve to themselves and root-relative hrefs
against the host of the base, the href `http://[bad` makes `urljoin`
raise (its netloc has an unmatched bracket), and a small fixed site is
served. -/
def testEnv : CrawlEnv where
  fetch u :=
    if u = "http://example.com" then
      some ⟨200, 120, "Example Domain", ["/a.html", "/b.html"]⟩
    else if u = "http://example.com/a.html" then some ⟨200, 10, "A", []⟩
    else if u = "http://example.com/b.html" then some ⟨404, 4, "B", ["/c.html"]⟩
    else if u = "http://trunc.com" then
      some ⟨200, 9, "T", ["/good1.html", "http://[bad", "/good2.html"]⟩
    else none
  urljoin b r :=
    if r = "http://[bad" then none
    else if pyStartswith r "/" then
      some ((if pyStartswith b "http://trunc.com" then "http://trunc.com"
             else "http://example.com") ++ r)
    else some r
  guessExtension _ := none
  lower := fixtureLower

/-- The spec's example configuration: `allowedDomains = ["example.com"]`,
`blacklistedExtensions = [".jpg", ".png"]`. -/
def testCfg : CrawlerConfig := ⟨2, ["example.com"], [".jpg", ".png"]⟩

/-! ## Unfolding lemmas for the loop body -/

/-- `is_allowed_domain` raises exactly when a domain restriction is set
and the URL's netloc parse raises; otherwise it returns
`allowedDomain`. -/
theorem is_allowed_domainE_eq (cfg : CrawlerConfig) (url : String) :
    is_allowed_domainE cfg url =
      if cfg.allowed_domains ≠ [] ∧ urlparseRaises url then .error ()
      else .ok (allowedDomain cfg url) := by
  unfold is_allowed_domainE allowedDomain
  by_cases h1 : cfg.allowed_domains = []
  · simp [h1]
  · by_cases h2 : urlparseRaises url = true <;> simp [h1, h2]

/-- `crawlStep` on a non-empty queue, written out as nested branches. -/
theorem crawlStep_cons (cfg : CrawlerConfig) (env : CrawlEnv)
    (v : List String) (st : CrawlStats) (u : String) (d : Nat)
    (rest : List (String × Nat)) (f : List String) :
    crawlStep cfg env ⟨v, st, (u, d) :: rest, f⟩ =
      if u ∈ v ∨ d > cfg.max_depth then .ok ⟨v, st, rest, f⟩
      else if cfg.allowed_domains ≠ [] ∧ urlparseRaises u then
        .error ⟨u :: v, st, rest, f⟩
      else if ¬ allowedDomain cfg u ∧ cfg.is_blacklisted env u then
        .ok ⟨u :: v, st, rest, f⟩
      else tryBlock cfg env u d ⟨u :: v, st, rest, f ++ [u]⟩ := by
  simp only [crawlStep, is_allowed_domainE_eq]
  by_cases h1 : u ∈ v ∨ d > cfg.max_depth
  · rw [if_pos h1, if_pos h1]
  · rw [if_neg h1, if_neg h1]
    by_cases h2 : cfg.allowed_domains ≠ [] ∧ urlparseRaises u = true
    · rw [if_pos h2, if_pos h2]
    · rw [if_neg h2, if_neg h2]

/-- The dropped-at-admission branch: an already-visited or too-deep
item is discarded with no other effect. -/
theorem crawlStep_drop (cfg : CrawlerConfig) (env : CrawlEnv)
    (s : CrawlerState) (u : String) (d : Nat) (rest : List (String × Nat))
    (hq : s.queue = (u, d) :: rest) (h : u ∈ s.visited ∨ d > cfg.max_depth) :
    crawlStep cfg env s = .ok { s with queue := rest } := by
  obtain ⟨v, st, q, f⟩ := s
  cases hq
  rw [crawlStep_cons, if_pos h]

/-- The filter-abort branch: when a domain restriction is set and the
admitted URL's netloc parse raises, the crawl aborts from line 182 —
the URL is already in the visited set, nothing is fetched or
recorded. -/
theorem crawlStep_filter_raise (cfg : CrawlerConfig) (env : CrawlEnv)
    (s : CrawlerState) (u : String) (d : Nat) (rest : List (String × Nat))
    (hq : s.queue = (u, d) :: rest)
    (hv : u ∉ s.visited) (hd : d ≤ cfg.max_depth)
    (hE : is_allowed_domainE cfg u = .error ()) :
    crawlStep cfg env s = .error { s with visited := u :: s.visited, queue := rest } := by
  obtain ⟨v, st, q, f⟩ := s
  cases hq
  have h2 : cfg.allowed_domains ≠ [] ∧ urlparseRaises u = true := by
    rw [is_allowed_domainE_eq] at hE
    by_cases h : cfg.allowed_domains ≠ [] ∧ urlparseRaises u = true
    · exact h
    · rw [if_neg h] at hE; cases hE
  rw [crawlStep_cons, if_neg (by simpa [Nat.not_lt] using And.intro hv hd),
    if_pos h2]

/-- A true skip test decodes into its components. -/
theorem skips_eq_true (cfg : CrawlerConfig) (env : CrawlEnv) (u : String)
    (hsk : skips cfg env u = true) :
    is_allowed_domainE cfg u = .ok false ∧
    cfg.is_blacklisted env u = true := by
  unfold skips at hsk
  rw [is_allowed_domainE_eq] at hsk ⊢
  by_cases h : cfg.allowed_domains ≠ [] ∧ urlparseRaises u = true
  · rw [if_pos h] at hsk; cases hsk
  · rw [if_neg h] at hsk
    rw [if_neg h]
    simp only [Bool.and_eq_true, Bool.not_eq_true'] at hsk
    exact ⟨by rw [hsk.1], hsk.2⟩

/-- The filter-skip branch: an admitted URL failing the combined
domain/extension test is marked visited and silently dropped. -/
theorem crawlStep_skip (cfg : CrawlerConfig) (env : CrawlEnv)
    (s : CrawlerState) (u : String) (d : Nat) (rest : List (String × Nat))
    (hq : s.queue = (u, d) :: rest)
    (hv : u ∉ s.visited) (hd : d ≤ cfg.max_depth)
    (hsk : skips cfg env u = true) :
    crawlStep cfg env s = .ok { s with visited := u :: s.visited, queue := rest } := by
  obtain ⟨hE, hbl⟩ := skips_eq_true cfg env u hsk
  rw [is_allowed_domainE_eq] at hE
  obtain ⟨v, st, q, f⟩ := s
  cases hq
  by_cases h2 : cfg.allowed_domains ≠ [] ∧ urlparseRaises u = true
  · rw [if_pos h2] at hE; cases hE
  · rw [if_neg h2] at hE
    injection hE with ha
    rw [crawlStep_cons, if_neg (by simpa [Nat.not_lt] using And.intro hv hd),
      if_neg h2, if_pos ⟨by simp [ha], hbl⟩]

/-- The go-to-fetch branch: an admitted URL that neither aborts nor
skips enters the `try` block with its URL appended to the fetch log. -/
theorem crawlStep_go (cfg : CrawlerConfig) (env : CrawlEnv)
    (s : CrawlerState) (u : String) (d : Nat) (rest : List (String × Nat))
    (a : Bool)
    (hq : s.queue = (u, d) :: rest)
    (hv : u ∉ s.visited) (hd : d ≤ cfg.max_depth)
    (hE : is_allowed_domainE cfg u = .ok a)
    (hns : ¬ (a = false ∧ cfg.is_blacklisted env u = true)) :
    crawlStep cfg env s =
      tryBlock cfg env u d
        ⟨u :: s.visited, s.stats, rest, s.fetched ++ [u]⟩ := by
  rw [is_allowed_domainE_eq] at hE
  obtain ⟨v, st, q, f⟩ := s
  cases hq
  by_cases h2 : cfg.allowed_domains ≠ [] ∧ urlparseRaises u = true
  · rw [if_pos h2] at hE; cases hE
  · rw [if_neg h2] at hE
    injection hE with ha
    rw [crawlStep_cons, if_neg (by simpa [Nat.not_lt] using And.intro hv hd),
      if_neg h2, if_neg]
    rintro ⟨hna, hbl⟩
    exact hns ⟨by rw [← ha]; exact Bool.not_eq_true _ ▸ Bool.of_not_eq_true hna, hbl⟩

/-- The `except` block when the sentinel record itself raises: the
crawl aborts with the partial mutations. -/
theorem exceptBlock_raise (st : CrawlerState) (u : String)
    (h : urlparseRaises u = true) :
    exceptBlock st u = .error { st with stats := st.stats.recordAborted 0 } := by
  unfold exceptBlock CrawlStats.recordE
  rw [if_pos h]

/-- The `except` block when the sentinel record completes: the
`(url, 0, 0, "ERROR")` record is appended and the loop continues. -/
theorem exceptBlock_ok (st : CrawlerState) (u : String)
    (h : urlparseRaises u = false) :
    exceptBlock st u = .ok { st with stats := st.stats.record u 0 0 "ERROR" } := by
  unfold exceptBlock CrawlStats.recordE
  rw [if_neg (by simp [h])]

/-- `crawlLoop` is the identity once the queue is empty. -/
theorem crawlLoop_nil (cfg : CrawlerConfig) (env : CrawlEnv) (fuel : Nat)
    (s : CrawlerState) (h : s.queue = []) : crawlLoop cfg env fuel s = .ok s := by
  cases fuel with
  | zero => rfl
  | succ n =>
    obtain ⟨v, st, q, f⟩ := s
    cases h
    rfl

/-- `crawlLoop` unfolds one iteration on a non-empty queue. -/
theorem crawlLoop_succ (cfg : CrawlerConfig) (env : CrawlEnv) (fuel : Nat)
    (s : CrawlerState) (x : String × Nat) (q : List (String × Nat))
    (h : s.queue = x :: q) :
    crawlLoop cfg env (fuel + 1) s =
      (crawlStep cfg env s).bind (crawlLoop cfg env fuel) := by
  obtain ⟨v, st, q', f⟩ := s
  cases h
  rfl

/-- A raising `record` call leaves the partial mutations. -/
theorem recordE_raise (s : CrawlStats) (url : String) (c : Int) (l : Nat)
    (t : String) (h : urlparseRaises url = true) :
    s.recordE url c l t = .error (s.recordAborted c) := by
  unfold CrawlStats.recordE
  rw [if_pos h]

/-- A non-raising `record` call completes. -/
theorem recordE_ok (s : CrawlStats) (url : String) (c : Int) (l : Nat)
    (t : String) (h : urlparseRaises url = false) :
    s.recordE url c l t = .ok (s.record url c l t) := by
  unfold CrawlStats.recordE
  rw [if_neg (by simp [h])]

/-- The `try` block when the fetch/parse raises. -/
theorem tryBlock_fetch_raise (cfg : CrawlerConfig) (env : CrawlEnv)
    (u : String) (d : Nat) (st : CrawlerState) (hf : env.fetch u = none) :
    tryBlock cfg env u d st = exceptBlock st u := by
  unfold tryBlock
  rw [hf]

/-- The `try` block when the success-path `record` itself raises: the
partial mutations stay and control moves to the `except` block (whose
own record then raises again on the same URL). -/
theorem tryBlock_record_raise (cfg : CrawlerConfig) (env : CrawlEnv)
    (u : String) (d : Nat) (st : CrawlerState) (page : Page)
    (hf : env.fetch u = some page) (hp : urlparseRaises u = true) :
    tryBlock cfg env u d st =
      .error { st with stats :=
        (st.stats.recordAborted page.status_code).recordAborted 0 } := by
  simp [tryBlock, exceptBlock, CrawlStats.recordE, hf, hp]

/-- The `try` block when the fetch and the record both complete. -/
theorem tryBlock_page_ok (cfg : CrawlerConfig) (env : CrawlEnv)
    (u : String) (d : Nat) (st : CrawlerState) (page : Page)
    (hf : env.fetch u = some page) (hp : urlparseRaises u = false) :
    tryBlock cfg env u d st =
      if d < cfg.max_depth ∧ page.status_code = 200 then
        processLinks env u d
          { st with
            stats := st.stats.record u page.status_code page.content_length page.title }
          page.hrefs
      else
        .ok { st with
          stats := st.stats.record u page.status_code page.content_length page.title } := by
  simp only [tryBlock, hf, recordE_ok _ _ _ _ _ hp]

/-- A fully resolving link list enqueues exactly the kept children. -/
theorem processLinks_resolved (env : CrawlEnv) (u : String) (d : Nat) :
    ∀ (hrefs : List String) (st : CrawlerState),
      (∀ h ∈ hrefs, (env.urljoin u h).isSome) →
      processLinks env u d st hrefs =
        .ok { st with queue := st.queue ++ keptChildren env u d hrefs } := by
  intro hrefs
  induction hrefs with
  | nil =>
    intro st _
    obtain ⟨v, stt, q, f⟩ := st
    simp [processLinks, keptChildren]
  | cons h hs ih =>
    intro st hall
    obtain ⟨href, hh⟩ := Option.isSome_iff_exists.1 (hall h (List.mem_cons_self h hs))
    simp only [processLinks, hh]
    have hrest : ∀ x ∈ hs, (env.urljoin u x).isSome :=
      fun x hx => hall x (List.mem_cons_of_mem h hx)
    by_cases hst : pyStartswith href "http" = true
    · rw [if_pos hst, ih _ hrest]
      simp [keptChildren, List.filterMap_cons, hh, hst]
    · rw [if_neg hst, ih _ hrest]
      simp only [Bool.not_eq_true] at hst
      simp [keptChildren, List.filterMap_cons, hh, hst]

/-- A raising `urljoin` mid-list keeps the already-enqueued prefix and
jumps to the `except` block; the rest of the links are never
examined. -/
theorem processLinks_prefix_raise (env : CrawlEnv) (u : String) (d : Nat)
    (bad : String) (post : List String) :
    ∀ (pre : List String) (st : CrawlerState),
      (∀ h ∈ pre, (env.urljoin u h).isSome) → env.urljoin u bad = none →
      processLinks env u d st (pre ++ bad :: post) =
        exceptBlock { st with queue := st.queue ++ keptChildren env u d pre } u := by
  intro pre
  induction pre with
  | nil =>
    intro st _ hbad
    obtain ⟨v, stt, q, f⟩ := st
    simp only [List.nil_append, processLinks]
    rw [hbad]
    simp [keptChildren]
  | cons h hs ih =>
    intro st hall hbad
    obtain ⟨href, hh⟩ := Option.isSome_iff_exists.1 (hall h (List.mem_cons_self h hs))
    simp only [List.cons_append, processLinks, hh, List.append_eq]
    have hrest : ∀ x ∈ hs, (env.urljoin u x).isSome :=
      fun x hx => hall x (List.mem_cons_of_mem h hx)
    by_cases hst : pyStartswith href "http" = true
    · rw [if_pos hst, ih _ hrest hbad]
      simp [keptChildren, List.filterMap_cons, hh, hst]
    · rw [if_neg hst, ih _ hrest hbad]
      simp only [Bool.not_eq_true] at hst
      simp [keptChildren, List.filterMap_cons, hh, hst]

/-! ## Shape lemmas -/

/-- What the `except` block does to the state fields: visited, queue
and fetch log untouched, `total_urls` up by one, and the result log
untouched (only when the sentinel record raises and the crawl aborts)
or extended with the sentinel. -/
theorem exceptBlock_shape (st : CrawlerState) (u : String) :
    (outState (exceptBlock st u)).visited = st.visited ∧
    (outState (exceptBlock st u)).queue = st.queue ∧
    (outState (exceptBlock st u)).fetched = st.fetched ∧
    (outState (exceptBlock st u)).stats.total_urls = st.stats.total_urls + 1 ∧
    ((outState (exceptBlock st u)).stats.results = st.stats.results ∨
      (outState (exceptBlock st u)).stats.results =
        st.stats.results ++ [⟨u, 0, 0, "ERROR"⟩]) := by
  by_cases hp : urlparseRaises u = true
  · rw [exceptBlock_raise st u hp]
    exact ⟨rfl, rfl, rfl, rfl, Or.inl rfl⟩
  · rw [exceptBlock_ok st u (by simpa using hp)]
    exact ⟨rfl, rfl, rfl, rfl, Or.inr rfl⟩

/-- What the link loop does to the state fields other than the queue:
visited and fetch log untouched, totals monotone, result log untouched
or extended with the current URL's sentinel. -/
theorem processLinks_shape (env : CrawlEnv) (u : String) (d : Nat) :
    ∀ (hrefs : List String) (st : CrawlerState),
      (outState (processLinks env u d st hrefs)).visited = st.visited ∧
      (outState (processLinks env u d st hrefs)).fetched = st.fetched ∧
      st.stats.total_urls ≤
        (outState (processLinks env u d st hrefs)).stats.total_urls ∧
      ((outState (processLinks env u d st hrefs)).stats.results
          = st.stats.results ∨
        (outState (processLinks env u d st hrefs)).stats.results
          = st.stats.results ++ [⟨u, 0, 0, "ERROR"⟩]) := by
  intro hrefs
  induction hrefs with
  | nil => intro st; exact ⟨rfl, rfl, le_refl _, Or.inl rfl⟩
  | cons h hs ih =>
    intro st
    cases hh : env.urljoin u h with
    | none =>
      simp only [processLinks, hh]
      obtain ⟨e1, e2, e3, e4, e5⟩ := exceptBlock_shape st u
      exact ⟨e1, e3, by omega, e5⟩
    | some href =>
      simp only [processLinks, hh]
      by_cases hst : pyStartswith href "http" = true
      · rw [if_pos hst]
        obtain ⟨i1, i2, i3, i4⟩ := ih { st with queue := st.queue ++ [(href, d + 1)] }
        exact ⟨i1, i2, i3, i4⟩
      · rw [if_neg hst]
        exact ih st

/-- What the `try` block does to the state fields other than the
queue: visited and fetch log untouched, `total_urls` strictly grown,
and the result log extended with at most two records, all carrying the
current URL. -/
theorem tryBlock_shape (cfg : CrawlerConfig) (env : CrawlEnv) (u : String)
    (d : Nat) (st : CrawlerState) :
    (outState (tryBlock cfg env u d st)).visited = st.visited ∧
    (outState (tryBlock cfg env u d st)).fetched = st.fetched ∧
    st.stats.total_urls + 1 ≤
      (outState (tryBlock cfg env u d st)).stats.total_urls ∧
    ∃ recs,
      (outState (tryBlock cfg env u d st)).stats.results
        = st.stats.results ++ recs ∧
      (∀ r ∈ recs, r.url = u) ∧ recs.length ≤ 2 := by
  cases hf : env.fetch u with
  | none =>
    rw [tryBlock_fetch_raise cfg env u d st hf]
    obtain ⟨e1, e2, e3, e4, e5⟩ := exceptBlock_shape st u
    refine ⟨e1, e3, by omega, ?_⟩
    rcases e5 with e5 | e5
    · exact ⟨[], by rw [e5, List.append_nil], by simp, by simp⟩
    · exact ⟨[⟨u, 0, 0, "ERROR"⟩], e5, by simp, by simp⟩
  | some page =>
    by_cases hp : urlparseRaises u = true
    · rw [tryBlock_record_raise cfg env u d st page hf hp]
      exact ⟨rfl, rfl, by simp [outState, CrawlStats.recordAborted],
        ⟨[], by simp [outState, CrawlStats.recordAborted], by simp, by simp⟩⟩
    · have hp' : urlparseRaises u = false := by simpa using hp
      rw [tryBlock_page_ok cfg env u d st page hf hp']
      by_cases hc : d < cfg.max_depth ∧ page.status_code = 200
      · rw [if_pos hc]
        obtain ⟨p1, p2, p3, p4⟩ := processLinks_shape env u d page.hrefs
          { st with
            stats := st.stats.record u page.status_code page.content_length page.title }
        refine ⟨p1, p2, ?_, ?_⟩
        · exact le_trans (by simp [CrawlStats.record]) p3
        · rcases p4 with p4 | p4
          · refine ⟨[⟨u, page.status_code, page.content_length, page.title⟩],
              ?_, by simp, by simp⟩
            rw [p4]
            simp [CrawlStats.record]
          · refine ⟨[⟨u, page.status_code, page.content_length, page.title⟩,
              ⟨u, 0, 0, "ERROR"⟩], ?_, ?_, by simp⟩
            · rw [p4]
              simp [CrawlStats.record]
            · intro r hr
              simp only [List.mem_cons, List.not_mem_nil, or_false] at hr
              rcases hr with rfl | rfl <;> rfl
      · rw [if_neg hc]
        refine ⟨rfl, rfl, by simp [outState, CrawlStats.record],
          ⟨[⟨u, page.status_code, page.content_length, page.title⟩],
            by simp [outState, CrawlStats.record], by simp, by simp⟩⟩

/-- What one loop iteration does to the fetch log, the result log and
the visited set, across all branches including aborts: at most one URL
is fetched, it was unvisited, and at most two records — all for that
URL — are appended. -/
theorem crawlStep_shape (cfg : CrawlerConfig) (env : CrawlEnv)
    (s : CrawlerState) :
    ∃ (newly : List String) (recs : List PageRecord),
      (outState (crawlStep cfg env s)).fetched = s.fetched ++ newly ∧
      (outState (crawlStep cfg env s)).stats.results = s.stats.results ++ recs ∧
      (∀ w ∈ newly, w ∉ s.visited) ∧
      (∀ r ∈ recs, r.url ∈ newly) ∧
      recs.length ≤ 2 ∧
      newly.length ≤ 1 ∧
      (∀ w, w ∈ s.visited → w ∈ (outState (crawlStep cfg env s)).visited) ∧
      (∀ w ∈ newly, w ∈ (outState (crawlStep cfg env s)).visited) := by
  obtain ⟨v, st, q, f⟩ := s
  cases q with
  | nil =>
    exact ⟨[], [], by simp [crawlStep, outState], by simp [crawlStep, outState],
      by simp, by simp, by simp, by simp, fun w hw => hw, by simp⟩
  | cons x rest =>
    obtain ⟨u, d⟩ := x
    rw [crawlStep_cons]
    by_cases h1 : u ∈ v ∨ d > cfg.max_depth
    · rw [if_pos h1]
      exact ⟨[], [], by simp [outState], by simp [outState], by simp, by simp,
        by simp, by simp, fun w hw => hw, by simp⟩
    · rw [if_neg h1]
      have hu : u ∉ v := fun hm => h1 (Or.inl hm)
      by_cases h2 : cfg.allowed_domains ≠ [] ∧ urlparseRaises u = true
      · rw [if_pos h2]
        exact ⟨[], [], by simp [outState], by simp [outState], by simp, by simp,
          by simp, by simp, fun w hw => List.mem_cons_of_mem _ hw, by simp⟩
      · rw [if_neg h2]
        by_cases h3 : ¬ allowedDomain cfg u ∧ cfg.is_blacklisted env u
        · rw [if_pos h3]
          exact ⟨[], [], by simp [outState], by simp [outState], by simp, by simp,
            by simp, by simp, fun w hw => List.mem_cons_of_mem _ hw, by simp⟩
        · rw [if_neg h3]
          obtain ⟨t1, t2, t3, recs, t4, t5, t6⟩ :=
            tryBlock_shape cfg env u d ⟨u :: v, st, rest, f ++ [u]⟩
          refine ⟨[u], recs, ?_, ?_, ?_, ?_, t6, by simp, ?_, ?_⟩
          · rw [t2]
          · rw [t4]
          · intro w hw
            simp only [List.mem_singleton] at hw
            subst hw
            exact hu
          · intro r hr
            simp [t5 r hr]
          · intro w hw
            rw [t1]
            exact List.mem_cons_of_mem _ hw
          · intro w hw
            simp only [List.mem_singleton] at hw
            subst hw
            rw [t1]
            exact List.mem_cons_self _ _

/-- A link loop that returns normally left the stats alone or appended
exactly the current URL's sentinel record. -/
theorem processLinks_ok_stats (env : CrawlEnv) (u : String) (d : Nat) :
    ∀ (hrefs : List String) (st s' : CrawlerState),
      processLinks env u d st hrefs = .ok s' →
      s'.stats = st.stats ∨ s'.stats = st.stats.record u 0 0 "ERROR" := by
  intro hrefs
  induction hrefs with
  | nil =>
    intro st s' h
    injection h with h
    subst h
    exact Or.inl rfl
  | cons h hs ih =>
    intro st s' hok
    cases hh : env.urljoin u h with
    | none =>
      simp only [processLinks, hh] at hok
      by_cases hp : urlparseRaises u = true
      · rw [exceptBlock_raise st u hp] at hok
        cases hok
      · rw [exceptBlock_ok st u (by simpa using hp)] at hok
        injection hok with hok
        subst hok
        exact Or.inr rfl
    | some href =>
      simp only [processLinks, hh] at hok
      by_cases hst : pyStartswith href "http" = true
      · rw [if_pos hst] at hok
        rcases ih _ _ hok with h2 | h2
        · exact Or.inl h2
        · exact Or.inr h2
      · rw [if_neg hst] at hok
        exact ih _ _ hok

/-- A `try` block that returns normally routed the stats through one
completed `record`, possibly followed by the sentinel record for the
same URL. -/
theorem tryBlock_ok_stats (cfg : CrawlerConfig) (env : CrawlEnv)
    (u : String) (d : Nat) (st s' : CrawlerState)
    (h : tryBlock cfg env u d st = .ok s') :
    (∃ c l t, s'.stats = st.stats.record u c l t) ∨
    (∃ c l t, s'.stats = (st.stats.record u c l t).record u 0 0 "ERROR") := by
  cases hf : env.fetch u with
  | none =>
    rw [tryBlock_fetch_raise cfg env u d st hf] at h
    by_cases hp : urlparseRaises u = true
    · rw [exceptBlock_raise st u hp] at h
      cases h
    · rw [exceptBlock_ok st u (by simpa using hp)] at h
      injection h with h
      subst h
      exact Or.inl ⟨0, 0, "ERROR", rfl⟩
  | some page =>
    by_cases hp : urlparseRaises u = true
    · rw [tryBlock_record_raise cfg env u d st page hf hp] at h
      cases h
    · have hp' : urlparseRaises u = false := by simpa using hp
      rw [tryBlock_page_ok cfg env u d st page hf hp'] at h
      by_cases hc : d < cfg.max_depth ∧ page.status_code = 200
      · rw [if_pos hc] at h
        rcases processLinks_ok_stats env u d page.hrefs _ _ h with h2 | h2
        · exact Or.inl ⟨page.status_code, page.content_length, page.title, h2⟩
        · exact Or.inr ⟨page.status_code, page.content_length, page.title, h2⟩
      · rw [if_neg hc] at h
        injection h with h
        subst h
        exact Or.inl ⟨page.status_code, page.content_length, page.title, rfl⟩

/-- An iteration that does not abort leaves the stats alone or routes
them through one or two completed `record` calls. -/
theorem crawlStep_ok_stats (cfg : CrawlerConfig) (env : CrawlEnv)
    (s s' : CrawlerState) (h : crawlStep cfg env s = .ok s') :
    s'.stats = s.stats ∨
    (∃ u c l t, s'.stats = s.stats.record u c l t) ∨
    (∃ u c l t, s'.stats = (s.stats.record u c l t).record u 0 0 "ERROR") := by
  obtain ⟨v, st, q, f⟩ := s
  cases q with
  | nil =>
    injection h with h
    subst h
    exact Or.inl rfl
  | cons x rest =>
    obtain ⟨u, d⟩ := x
    rw [crawlStep_cons] at h
    by_cases h1 : u ∈ v ∨ d > cfg.max_depth
    · rw [if_pos h1] at h
      injection h with h
      subst h
      exact Or.inl rfl
    · rw [if_neg h1] at h
      by_cases h2 : cfg.allowed_domains ≠ [] ∧ urlparseRaises u = true
      · rw [if_pos h2] at h
        cases h
      · rw [if_neg h2] at h
        by_cases h3 : ¬ allowedDomain cfg u ∧ cfg.is_blacklisted env u
        · rw [if_pos h3] at h
          injection h with h
          subst h
          exact Or.inl rfl
        · rw [if_neg h3] at h
          rcases tryBlock_ok_stats cfg env u d _ _ h with ⟨c, l, t, h4⟩ | ⟨c, l, t, h4⟩
          · exact Or.inr (Or.inl ⟨u, c, l, t, h4⟩)
          · exact Or.inr (Or.inr ⟨u, c, l, t, h4⟩)

/-! ## C2 -/

/-- A status code outside `[200, 300)` — the source's error test in
`CrawlStats.record`. -/
def isErrorStatus (c : Int) : Bool :=
  if 200 ≤ c ∧ c < 300 then false else true

/-- The spec's bookkeeping invariant on `CrawlStats`. -/
def statsInv (s : CrawlStats) : Prop :=
  s.total_urls = s.results.length ∧
  s.errors = (s.results.filter fun r => isErrorStatus r.status).length

/-- An arbitrary sequence of completed `record` calls, applied in
order. -/
def applyRecords (s : CrawlStats) :
    List (String × Int × Nat × String) → CrawlStats
  | [] => s
  | (u, c, l, t) :: rest => applyRecords (s.record u c l t) rest

/-- A completed `record` call preserves the bookkeeping invariant. -/
theorem statsInv_record (s : CrawlStats) (u : String) (c : Int) (l : Nat)
    (t : String) (h : statsInv s) : statsInv (s.record u c l t) := by
  obtain ⟨h1, h2⟩ := h
  constructor
  · simp [CrawlStats.record, h1]
  · simp only [CrawlStats.record, List.filter_append, List.length_append, ← h2]
    by_cases hc : 200 ≤ c ∧ c < 300 <;>
      simp [List.filter, isErrorStatus, hc]

/-- `applyRecords` preserves the bookkeeping invariant. -/
theorem statsInv_applyRecords (calls : List (String × Int × Nat × String)) :
    ∀ s : CrawlStats, statsInv s → statsInv (applyRecords s calls) := by
  induction calls with
  | nil => intro s h; exact h
  | cons x rest ih =>
    intro s h
    obtain ⟨u, c, l, t⟩ := x
    exact ih (s.record u c l t) (statsInv_record s u c l t h)

/-- Every non-aborted loop run preserves the bookkeeping invariant. -/
theorem statsInv_crawlLoop (cfg : CrawlerConfig) (env : CrawlEnv)
    (fuel : Nat) :
    ∀ s s' : CrawlerState, statsInv s.stats →
      crawlLoop cfg env fuel s = .ok s' → statsInv s'.stats := by
  induction fuel with
  | zero =>
    intro s s' h hok
    injection hok with hok
    subst hok
    exact h
  | succ n ih =>
    intro s s' h hok
    match hq : s.queue with
    | [] =>
      rw [crawlLoop_nil cfg env (n + 1) s hq] at hok
      injection hok with hok
      subst hok
      exact h
    | x :: q =>
      rw [crawlLoop_succ cfg env n s x q hq] at hok
      cases hstep : crawlStep cfg env s with
      | error e =>
        rw [hstep] at hok
        cases hok
      | ok s1 =>
        rw [hstep] at hok
        refine ih s1 s' ?_ hok
        rcases crawlStep_ok_stats cfg env s s1 hstep with
          he | ⟨u, c, l, t, he⟩ | ⟨u, c, l, t, he⟩
        · rw [he]; exact h
        · rw [he]; exact statsInv_record _ _ _ _ _ h
        · rw [he]
          exact statsInv_record _ _ _ _ _ (statsInv_record _ _ _ _ _ h)

/-- C2: over any sequence of completed `record` calls starting from
the empty `CrawlStats` — in particular over every crawl run that is
not aborted by a propagating exception — `total_urls` equals the
length of `results` and `errors` equals the number of results whose
status code lies outside `[200, 300)`. -/
theorem crawl_stats_totals_invariant :
    (∀ calls : List (String × Int × Nat × String),
        statsInv (applyRecords CrawlStats.init calls)) ∧
    (∀ (cfg : CrawlerConfig) (env : CrawlEnv) (fuel : Nat)
        (start_url : String) (s' : CrawlerState),
        crawlRun cfg env fuel start_url = .ok s' → statsInv s'.stats) := by
  have hinit : statsInv CrawlStats.init := ⟨rfl, rfl⟩
  refine ⟨fun calls => statsInv_applyRecords calls CrawlStats.init hinit, ?_⟩
  intro cfg env fuel start_url s' hok
  exact statsInv_crawlLoop cfg env fuel (initState start_url) s' hinit hok

/-- Witness for C2 at a completed concrete run over the example
configuration and site. -/
theorem crawl_stats_totals_invariant_witness :
    (crawlRun testCfg testEnv 10 "http://example.com"
        = .ok (outState (crawlRun testCfg testEnv 10 "http://example.com"))) ∧
    statsInv (outState (crawlRun testCfg testEnv 10 "http://example.com")).stats :=
  ⟨by decide,
    crawl_stats_totals_invariant.2 testCfg testEnv 10 "http://example.com"
      (outState (crawlRun testCfg testEnv 10 "http://example.com")) (by decide)⟩

/-! ## C3 -/

/-- Run invariant tying the ghost fetch log, the result log and the
visited set together: no URL is fetched twice, only visited URLs are
fetched, and each URL carries at most two records per fetch. -/
def onceInv (s : CrawlerState) : Prop :=
  s.fetched.Nodup ∧ (∀ u ∈ s.fetched, u ∈ s.visited) ∧
  (∀ u, (s.stats.results.map PageRecord.url).count u ≤ 2 * s.fetched.count u)

/-- One loop iteration preserves the at-most-once invariant, abort or
not. -/
theorem onceInv_crawlStep (cfg : CrawlerConfig) (env : CrawlEnv)
    (s : CrawlerState) (h : onceInv s) :
    onceInv (outState (crawlStep cfg env s)) := by
  obtain ⟨h1, h2, h3⟩ := h
  obtain ⟨newly, recs, e1, e2, e3, e4, e5, e8, e6, e7⟩ := crawlStep_shape cfg env s
  have hdisj : ∀ w ∈ newly, w ∉ s.fetched := fun w hw hf => e3 w hw (h2 w hf)
  refine ⟨?_, ?_, ?_⟩
  · rw [e1]
    match hn : newly with
    | [] => simpa using h1
    | [w] =>
      have : w ∉ s.fetched := hdisj w (List.mem_cons_self _ _)
      simp [List.nodup_append, h1, this]
    | _ :: _ :: _ =>
      simp at e8
  · intro w hw
    rw [e1] at hw
    rcases List.mem_append.1 hw with hw | hw
    · exact e6 w (h2 w hw)
    · exact e7 w hw
  · intro w
    rw [e1, e2, List.map_append, List.count_append, List.count_append]
    by_cases hwn : w ∈ newly
    · have hwf : w ∉ s.fetched := hdisj w hwn
      have hc0 : s.fetched.count w = 0 := List.count_eq_zero.2 hwf
      have hr0 : (s.stats.results.map PageRecord.url).count w = 0 := by
        have := h3 w
        omega
      have hcn : 0 < newly.count w := List.count_pos_iff.2 hwn
      have hrec : (recs.map PageRecord.url).count w ≤ 2 := by
        calc (recs.map PageRecord.url).count w
            ≤ (recs.map PageRecord.url).length := List.count_le_length _ _
          _ = recs.length := List.length_map _ _
          _ ≤ 2 := e5
      omega
    · have hn0 : newly.count w = 0 := List.count_eq_zero.2 hwn
      have hrn : (recs.map PageRecord.url).count w = 0 := by
        rw [List.count_eq_zero]
        intro hmem
        rcases List.mem_map.1 hmem with ⟨r, hr, rfl⟩
        exact hwn (e4 r hr)
      have := h3 w
      omega

/-- The loop preserves the at-most-once invariant. -/
theorem onceInv_crawlLoop (cfg : CrawlerConfig) (env : CrawlEnv)
    (fuel : Nat) :
    ∀ s : CrawlerState, onceInv s →
      onceInv (outState (crawlLoop cfg env fuel s)) := by
  induction fuel with
  | zero => intro s h; exact h
  | succ n ih =>
    intro s h
    match hq : s.queue with
    | [] => rw [crawlLoop_nil cfg env (n + 1) s hq]; exact h
    | x :: q =>
      rw [crawlLoop_succ cfg env n s x q hq]
      cases hstep : crawlStep cfg env s with
      | error e =>
        have h2 := onceInv_crawlStep cfg env s h
        rw [hstep] at h2
        exact h2
      | ok s1 =>
        have h2 := onceInv_crawlStep cfg env s h
        rw [hstep] at h2
        exact ih s1 h2

/-- C3 (amended): within one crawl run every URL is fetched at most
once — the visited-set check at dequeue time blocks re-fetches — and
at most two PageRecords are ever created for any URL (the second can
arise only as the error sentinel recorded when link processing raises
after the URL's success record). -/
theorem crawl_at_most_one_record_per_url (cfg : CrawlerConfig)
    (env : CrawlEnv) (fuel : Nat) (start_url : String) :
    (outState (crawlRun cfg env fuel start_url)).fetched.Nodup ∧
    ∀ u, ((outState (crawlRun cfg env fuel start_url)).stats.results.map
        PageRecord.url).count u ≤ 2 := by
  simp only [crawlRun]
  have h := onceInv_crawlLoop cfg env fuel (initState start_url)
    ⟨List.nodup_nil, (by intro u hu; cases hu), (by intro u; simp [initState, CrawlStats.init])⟩
  obtain ⟨h1, h2, h3⟩ := h
  refine ⟨h1, fun u => ?_⟩
  have hle := List.nodup_iff_count_le_one.1 h1 u
  have := h3 u
  omega

/-- Counterexample to C3 as stated: on `http://trunc.com`, whose page
is recorded with status 200 and whose second href makes `urljoin`
raise, the except handler records the same URL again — two
`PageRecord`s for one URL in one completed (non-aborted) run. -/
theorem crawl_double_record_counterexample :
    (outState (crawlRun ⟨1, [], []⟩ testEnv 10 "http://trunc.com")).stats.results =
      [⟨"http://trunc.com", 200, 9, "T"⟩,
       ⟨"http://trunc.com", 0, 0, "ERROR"⟩,
       ⟨"http://trunc.com/good1.html", 0, 0, "ERROR"⟩] ∧
    ((outState (crawlRun ⟨1, [], []⟩ testEnv 10 "http://trunc.com")).stats.results.map
        PageRecord.url).count "http://trunc.com" = 2 :=
  ⟨by decide, by decide⟩

/-! ## C1 -/

/-- C1 (amended): a URL dequeued from the frontier that passes the
visited/depth admission check is silently skipped — no fetch
performed, no stats recorded, loop continuing — if and only if it is
both NOT in an allowed domain AND blacklisted by extension, provided
the domain check's `urlparse` does not raise; when it raises (a
domain restriction is set and the URL's netloc is an invalid bracket
expression), the whole crawl aborts from the filter — also with no
fetch and no stats, but without continuing. In every other case the
URL is fetched. -/
theorem crawl_skip_iff_disallowed_and_blacklisted
    (cfg : CrawlerConfig) (env : CrawlEnv) (s : CrawlerState)
    (u : String) (d : Nat) (rest : List (String × Nat))
    (hq : s.queue = (u, d) :: rest)
    (hv : u ∉ s.visited) (hd : d ≤ cfg.max_depth) :
    (((outState (crawlStep cfg env s)).stats = s.stats ∧
        (outState (crawlStep cfg env s)).fetched = s.fetched)
      ↔ (skips cfg env u = true ∨ is_allowed_domainE cfg u = .error ())) ∧
    (skips cfg env u = true →
      crawlStep cfg env s
        = .ok { s with visited := u :: s.visited, queue := rest }) ∧
    (is_allowed_domainE cfg u = .error () →
      crawlStep cfg env s
        = .error { s with visited := u :: s.visited, queue := rest }) := by
  refine ⟨⟨?_, ?_⟩, fun hsk => crawlStep_skip cfg env s u d rest hq hv hd hsk,
    fun herr => crawlStep_filter_raise cfg env s u d rest hq hv hd herr⟩
  · rintro ⟨hst, hfe⟩
    by_cases hsk : skips cfg env u = true
    · exact Or.inl hsk
    · cases hE : is_allowed_domainE cfg u with
      | error e => cases e; exact Or.inr rfl
      | ok a =>
        exfalso
        have hns : ¬ (a = false ∧ cfg.is_blacklisted env u = true) := by
          rintro ⟨ha, hbl⟩
          apply hsk
          unfold skips
          rw [hE, ha, hbl]
          rfl
        have hfetch : (outState (crawlStep cfg env s)).fetched
            = s.fetched ++ [u] := by
          rw [crawlStep_go cfg env s u d rest a hq hv hd hE hns]
          exact (tryBlock_shape cfg env u d _).2.1
        rw [hfe] at hfetch
        have hlen := congrArg List.length hfetch
        simp at hlen
  · rintro (hsk | herr)
    · rw [crawlStep_skip cfg env s u d rest hq hv hd hsk]
      exact ⟨rfl, rfl⟩
    · rw [crawlStep_filter_raise cfg env s u d rest hq hv hd herr]
      exact ⟨rfl, rfl⟩

/-- Counterexample to C1 as stated: the admitted seed `http://[bad`
under `allowedDomains = ["example.com"]` with an empty blacklist is
certainly not "not-allowed AND blacklisted", so the claimed iff
demands a fetch; instead `is_allowed_domain`'s `urlparse` raises at
line 182, outside the `try`, and the crawl aborts without ever
fetching. -/
theorem crawl_filter_abort_counterexample :
    (⟨2, ["example.com"], []⟩ : CrawlerConfig).blacklist = [] ∧
    crawlStep ⟨2, ["example.com"], []⟩ testEnv
        ⟨[], CrawlStats.init, [("http://[bad", 0)], []⟩
      = .error ⟨["http://[bad"], CrawlStats.init, [], []⟩ ∧
    (outState (crawlStep ⟨2, ["example.com"], []⟩ testEnv
        ⟨[], CrawlStats.init, [("http://[bad", 0)], []⟩)).fetched = [] :=
  ⟨rfl, by decide, by decide⟩

/-- Witness for the amended C1 at the spec's example: the freshly
dequeued `http://other.com/file.png` passes admission and is silently
skipped (not-allowed and blacklisted), with the equivalence holding
concretely. -/
theorem crawl_skip_iff_disallowed_and_blacklisted_witness :
    ("http://other.com/file.png" ∉ ([] : List String) ∧
      (0 : Nat) ≤ testCfg.max_depth) ∧
    ((((outState (crawlStep testCfg testEnv
          ⟨[], CrawlStats.init, [("http://other.com/file.png", 0)], []⟩)).stats
            = CrawlStats.init ∧
        (outState (crawlStep testCfg testEnv
          ⟨[], CrawlStats.init, [("http://other.com/file.png", 0)], []⟩)).fetched
            = []) ↔
      (skips testCfg testEnv "http://other.com/file.png" = true ∨
        is_allowed_domainE testCfg "http://other.com/file.png" = .error ())) ∧
      (skips testCfg testEnv "http://other.com/file.png" = true →
        crawlStep testCfg testEnv
            ⟨[], CrawlStats.init, [("http://other.com/file.png", 0)], []⟩
          = .ok ⟨["http://other.com/file.png"], CrawlStats.init, [], []⟩) ∧
      (is_allowed_domainE testCfg "http://other.com/file.png" = .error () →
        crawlStep testCfg testEnv
            ⟨[], CrawlStats.init, [("http://other.com/file.png", 0)], []⟩
          = .error ⟨["http://other.com/file.png"], CrawlStats.init, [], []⟩)) :=
  ⟨⟨by decide, by decide⟩,
    crawl_skip_iff_disallowed_and_blacklisted testCfg testEnv
      ⟨[], CrawlStats.init, [("http://other.com/file.png", 0)], []⟩
      "http://other.com/file.png" 0 [] rfl (by decide) (by decide)⟩

/-! ## C4 -/

/-- Counterexample to C4 as stated: a `max_depth = 0` run whose seed
URL is caught by the domain/extension filter (`http://other.com/file.png`
against `allowedDomains = ["example.com"]`, blacklist `[".png"]`) ends
with zero `PageRecord`s, not exactly one. -/
theorem crawl_depth_zero_counterexample :
    (outState (crawlRun ⟨0, ["example.com"], [".png"]⟩ testEnv 1
        "http://other.com/file.png")).stats.results = [] ∧
    (outState (crawlRun ⟨0, ["example.com"], [".png"]⟩ testEnv 1
        "http://other.com/file.png")).stats.results.length ≠ 1 :=
  ⟨by decide, by decide⟩

/-- C4 (amended): a `max_depth = 0` run with enough fuel to process
the seed ends, regardless of how many links the seed page contains, in
one of exactly three ways: aborted from the filter with zero records
(domain restriction set and the seed's netloc parse raises); completed
with zero records (seed silently skipped by the filter); aborted
mid-record with zero records but partial counters (the seed's netloc
parse raises while recording); or completed with exactly one record,
the seed's. -/
theorem crawl_depth_zero_seed_only (cfg : CrawlerConfig) (env : CrawlEnv)
    (fuel : Nat) (start_url : String)
    (h0 : cfg.max_depth = 0) (hfuel : 1 ≤ fuel) :
    crawlRun cfg env fuel start_url =
      match is_allowed_domainE cfg start_url with
      | .error _ => .error ⟨[start_url], CrawlStats.init, [], []⟩
      | .ok a =>
        if a = false ∧ cfg.is_blacklisted env start_url = true then
          .ok ⟨[start_url], CrawlStats.init, [], []⟩
        else if urlparseRaises start_url then
          .error ⟨[start_url],
            (match env.fetch start_url with
             | none => CrawlStats.init.recordAborted 0
             | some page =>
               (CrawlStats.init.recordAborted page.status_code).recordAborted 0),
            [], [start_url]⟩
        else
          .ok ⟨[start_url],
            (match env.fetch start_url with
             | none => CrawlStats.init.record start_url 0 0 "ERROR"
             | some page =>
               CrawlStats.init.record start_url page.status_code
                 page.content_length page.title),
            [], [start_url]⟩ := by
  obtain ⟨n, rfl⟩ : ∃ n, fuel = n + 1 := ⟨fuel - 1, by omega⟩
  rw [crawlRun, crawlLoop_succ cfg env n _ (start_url, 0) [] rfl]
  have hv : start_url ∉ (initState start_url).visited := List.not_mem_nil _
  have hd : 0 ≤ cfg.max_depth := Nat.zero_le _
  split
  next e heq =>
    cases e
    rw [crawlStep_filter_raise cfg env _ start_url 0 [] rfl hv hd heq]
    rfl
  next a heq =>
    by_cases hsk : a = false ∧ cfg.is_blacklisted env start_url = true
    · have hsk' : skips cfg env start_url = true := by
        unfold skips
        rw [heq, hsk.1, hsk.2]
        rfl
      rw [crawlStep_skip cfg env _ start_url 0 [] rfl hv hd hsk', if_pos hsk]
      simp only [Except.bind]
      rw [crawlLoop_nil cfg env n _ rfl]
      rfl
    · rw [crawlStep_go cfg env _ start_url 0 [] a rfl hv hd heq hsk, if_neg hsk]
      cases hf : env.fetch start_url with
      | none =>
        rw [tryBlock_fetch_raise cfg env start_url 0 _ hf]
        by_cases hp : urlparseRaises start_url = true
        · rw [exceptBlock_raise _ _ hp, if_pos hp]
          rfl
        · have hp' : urlparseRaises start_url = false := by simpa using hp
          rw [exceptBlock_ok _ _ hp', if_neg (by simp [hp'])]
          simp only [Except.bind]
          rw [crawlLoop_nil cfg env n _ rfl]
          rfl
      | some page =>
        by_cases hp : urlparseRaises start_url = true
        · rw [tryBlock_record_raise cfg env start_url 0 _ page hf hp, if_pos hp]
          rfl
        · have hp' : urlparseRaises start_url = false := by simpa using hp
          rw [tryBlock_page_ok cfg env start_url 0 _ page hf hp']
          rw [if_neg (show ¬ ((0 : Nat) < cfg.max_depth ∧ page.status_code = 200) by
            simp [h0])]
          rw [if_neg (show ¬ (urlparseRaises start_url = true) by simp [hp'])]
          simp only [Except.bind]
          rw [crawlLoop_nil cfg env n _ rfl]
          rfl

/-- Witness for the amended C4: an unrestricted `max_depth = 0` crawl
of `http://example.com` — whose page holds two links — completes with
exactly the seed record. -/
theorem crawl_depth_zero_seed_only_witness :
    ((⟨0, [], []⟩ : CrawlerConfig).max_depth = 0 ∧ (1 : Nat) ≤ 1) ∧
    crawlRun ⟨0, [], []⟩ testEnv 1 "http://example.com" =
      (match is_allowed_domainE ⟨0, [], []⟩ "http://example.com" with
       | .error _ => .error ⟨["http://example.com"], CrawlStats.init, [], []⟩
       | .ok a =>
         if a = false ∧
             CrawlerConfig.is_blacklisted ⟨0, [], []⟩ testEnv "http://example.com"
               = true then
           .ok ⟨["http://example.com"], CrawlStats.init, [], []⟩
         else if urlparseRaises "http://example.com" then
           .error ⟨["http://example.com"],
             (match testEnv.fetch "http://example.com" with
              | none => CrawlStats.init.recordAborted 0
              | some page =>
                (CrawlStats.init.recordAborted page.status_code).recordAborted 0),
             [], ["http://example.com"]⟩
         else
           .ok ⟨["http://example.com"],
             (match testEnv.fetch "http://example.com" with
              | none => CrawlStats.init.record "http://example.com" 0 0 "ERROR"
              | some page =>
                CrawlStats.init.record "http://example.com" page.status_code
                  page.content_length page.title),
             [], ["http://example.com"]⟩) :=
  ⟨⟨rfl, le_refl 1⟩,
    crawl_depth_zero_seed_only ⟨0, [], []⟩ testEnv 1 "http://example.com"
      rfl (le_refl 1)⟩

/-! ## C5 -/

/-- C5 is a code bug, evaluated at the failing input: on the default
unrestricted configuration the seed `http://[bad` passes the filter,
its fetch raises, and the except handler's `record(url, 0, 0,
"ERROR")` itself raises in `urlparse(url).netloc` at line 128 — the
exception propagates out of `crawl`, aborting the whole run after
incrementing `total_urls`, `errors` and `status_code_counts[0]` but
before any `PageRecord` is appended, contrary to the claim (and spec
§7) that no exception from one URL's processing aborts the crawl. -/
theorem crawl_sentinel_record_abort :
    crawlRun ⟨2, [], []⟩ testEnv 5 "http://[bad" =
      .error ⟨["http://[bad"], ⟨1, 1, [(0, 1)], [], []⟩, [], ["http://[bad"]⟩ ∧
    isAborted (crawlRun ⟨2, [], []⟩ testEnv 5 "http://[bad") = true :=
  ⟨by decide, by decide⟩

/-! ## C6 -/

/-- C6 (amended): after a successful fetch and completed record of an
admitted, unskipped frontier item, children are processed exactly when
the response status is `200` and the item's depth is strictly below
`max_depth` — a non-200 page contributes no children even when its
body holds links; when every link resolves, exactly the
`urljoin`-resolved hrefs starting with `"http"` are enqueued at
`depth + 1`; when some link's resolution raises, only the links before
it are enqueued, the error sentinel is recorded for the current URL,
and the links after it are never examined. -/
theorem crawl_children_enqueued_iff
    (cfg : CrawlerConfig) (env : CrawlEnv) (s : CrawlerState)
    (u : String) (d : Nat) (rest : List (String × Nat)) (page : Page)
    (a : Bool) (pre : List String) (bad : String) (post : List String)
    (hq : s.queue = (u, d) :: rest)
    (hv : u ∉ s.visited) (hd : d ≤ cfg.max_depth)
    (hE : is_allowed_domainE cfg u = .ok a)
    (hns : ¬ (a = false ∧ cfg.is_blacklisted env u = true))
    (hp : urlparseRaises u = false)
    (hf : env.fetch u = some page) :
    (¬ (d < cfg.max_depth ∧ page.status_code = 200) →
      crawlStep cfg env s =
        .ok ⟨u :: s.visited,
          s.stats.record u page.status_code page.content_length page.title,
          rest, s.fetched ++ [u]⟩) ∧
    ((d < cfg.max_depth ∧ page.status_code = 200) →
      (∀ h ∈ page.hrefs, (env.urljoin u h).isSome) →
      crawlStep cfg env s =
        .ok ⟨u :: s.visited,
          s.stats.record u page.status_code page.content_length page.title,
          rest ++ keptChildren env u d page.hrefs, s.fetched ++ [u]⟩) ∧
    ((d < cfg.max_depth ∧ page.status_code = 200) →
      page.hrefs = pre ++ bad :: post →
      (∀ h ∈ pre, (env.urljoin u h).isSome) →
      env.urljoin u bad = none →
      crawlStep cfg env s =
        .ok ⟨u :: s.visited,
          (s.stats.record u page.status_code page.content_length
            page.title).record u 0 0 "ERROR",
          rest ++ keptChildren env u d pre, s.fetched ++ [u]⟩) := by
  have hgo := crawlStep_go cfg env s u d rest a hq hv hd hE hns
  refine ⟨?_, ?_, ?_⟩
  · intro hc
    rw [hgo, tryBlock_page_ok cfg env u d _ page hf hp, if_neg hc]
  · intro hc hall
    rw [hgo, tryBlock_page_ok cfg env u d _ page hf hp, if_pos hc,
      processLinks_resolved env u d page.hrefs _ hall]
  · intro hc hsplit hall hbad
    rw [hgo, tryBlock_page_ok cfg env u d _ page hf hp, if_pos hc, hsplit,
      processLinks_prefix_raise env u d bad post pre _ hall hbad,
      exceptBlock_ok _ _ hp]

/-- Counterexample to C6 as stated: the 200 page at
`http://trunc.com`, crawled with `max_depth = 1` at depth 0, has three
hrefs; the first is enqueued, the second makes `urljoin` raise, and
the third is never enqueued — the claimed all-links-enqueued iff fails
(and a second record appears for the page). -/
theorem crawl_children_truncated_counterexample :
    crawlStep ⟨1, [], []⟩ testEnv
        ⟨[], CrawlStats.init, [("http://trunc.com", 0)], []⟩
      = .ok ⟨["http://trunc.com"],
          (CrawlStats.init.record "http://trunc.com" 200 9 "T").record
            "http://trunc.com" 0 0 "ERROR",
          [("http://trunc.com/good1.html", 1)], ["http://trunc.com"]⟩ ∧
    ("http://trunc.com/good2.html", 1) ∉
      (outState (crawlStep ⟨1, [], []⟩ testEnv
        ⟨[], CrawlStats.init, [("http://trunc.com", 0)], []⟩)).queue :=
  ⟨by decide, by decide⟩

/-- Witness for the amended C6 at the spec's 404 scenario: the
`testEnv` page `http://example.com/b.html` answers 404 with a link in
its body, and no children are enqueued. -/
theorem crawl_children_enqueued_iff_witness :
    ("http://example.com/b.html" ∉ ([] : List String) ∧
      (0 : Nat) ≤ testCfg.max_depth ∧
      urlparseRaises "http://example.com/b.html" = false ∧
      testEnv.fetch "http://example.com/b.html"
        = some ⟨404, 4, "B", ["/c.html"]⟩) ∧
    ((¬ ((0 : Nat) < testCfg.max_depth ∧ (404 : Int) = 200) →
      crawlStep testCfg testEnv
          ⟨[], CrawlStats.init, [("http://example.com/b.html", 0)], []⟩ =
        .ok ⟨["http://example.com/b.html"],
          CrawlStats.init.record "http://example.com/b.html" 404 4 "B",
          [] ++ [], []  ++ ["http://example.com/b.html"]⟩) ∧
    (((0 : Nat) < testCfg.max_depth ∧ (404 : Int) = 200) →
      (∀ h ∈ (⟨404, 4, "B", ["/c.html"]⟩ : Page).hrefs,
        (testEnv.urljoin "http://example.com/b.html" h).isSome) →
      crawlStep testCfg testEnv
          ⟨[], CrawlStats.init, [("http://example.com/b.html", 0)], []⟩ =
        .ok ⟨["http://example.com/b.html"],
          CrawlStats.init.record "http://example.com/b.html" 404 4 "B",
          [] ++ keptChildren testEnv "http://example.com/b.html" 0
            (⟨404, 4, "B", ["/c.html"]⟩ : Page).hrefs,
          [] ++ ["http://example.com/b.html"]⟩) ∧
    (((0 : Nat) < testCfg.max_depth ∧ (404 : Int) = 200) →
      (⟨404, 4, "B", ["/c.html"]⟩ : Page).hrefs = [] ++ "/c.html" :: [] →
      (∀ h ∈ ([] : List String),
        (testEnv.urljoin "http://example.com/b.html" h).isSome) →
      testEnv.urljoin "http://example.com/b.html" "/c.html" = none →
      crawlStep testCfg testEnv
          ⟨[], CrawlStats.init, [("http://example.com/b.html", 0)], []⟩ =
        .ok ⟨["http://example.com/b.html"],
          (CrawlStats.init.record "http://example.com/b.html" 404 4
            "B").record "http://example.com/b.html" 0 0 "ERROR",
          [] ++ keptChildren testEnv "http://example.com/b.html" 0 [],
          [] ++ ["http://example.com/b.html"]⟩)) :=
  ⟨⟨by decide, by decide, by decide, rfl⟩,
    crawl_children_enqueued_iff testCfg testEnv
      ⟨[], CrawlStats.init, [("http://example.com/b.html", 0)], []⟩
      "http://example.com/b.html" 0 [] ⟨404, 4, "B", ["/c.html"]⟩
      true [] "/c.html" [] rfl (by decide) (by decide) (by decide)
      (by decide) (by decide) rfl⟩

/-! ## C7 -/

/-- C7: the crawl is deterministic in its inputs: two independently
constructed crawlers (each starting from an empty visited set and
empty stats) with componentwise-identical configuration, run against
pointwise-identical deterministic fetch/parse/resolve/guess/lower
behaviour from the same start URL with the same fuel, produce the same
outcome — identical `CrawlStats` with the same result sequence in the
same order, or the identical abort. -/
theorem crawl_deterministic (cfg₁ cfg₂ : CrawlerConfig)
    (env₁ env₂ : CrawlEnv) (fuel : Nat) (start_url : String)
    (hmd : cfg₁.max_depth = cfg₂.max_depth)
    (had : cfg₁.allowed_domains = cfg₂.allowed_domains)
    (hbl : cfg₁.blacklist = cfg₂.blacklist)
    (hfetch : ∀ u, env₁.fetch u = env₂.fetch u)
    (hjoin : ∀ b r, env₁.urljoin b r = env₂.urljoin b r)
    (hguess : ∀ p, env₁.guessExtension p = env₂.guessExtension p)
    (hlower : ∀ x, env₁.lower x = env₂.lower x) :
    crawlRun cfg₁ env₁ fuel start_url = crawlRun cfg₂ env₂ fuel start_url := by
  obtain ⟨m₁, a₁, b₁⟩ := cfg₁
  obtain ⟨m₂, a₂, b₂⟩ := cfg₂
  obtain ⟨f₁, j₁, g₁, l₁⟩ := env₁
  obtain ⟨f₂, j₂, g₂, l₂⟩ := env₂
  simp only at hmd had hbl hfetch hjoin hguess hlower
  subst hmd had hbl
  have hf : f₁ = f₂ := funext hfetch
  have hj : j₁ = j₂ := funext fun b => funext fun r => hjoin b r
  have hg : g₁ = g₂ := funext hguess
  have hl : l₁ = l₂ := funext hlower
  subst hf hj hg hl
  rfl

/-- A second, syntactically distinct but pointwise-equal copy of
`testEnv`, standing in for an independently constructed collaborator
set. -/
def testEnvCopy : CrawlEnv where
  fetch u := testEnv.fetch u
  urljoin b r := testEnv.urljoin b r
  guessExtension p := testEnv.guessExtension p
  lower x := testEnv.lower x

/-- Witness for C7: two runs over `testCfg` with independently built
(pointwise-equal) environments agree on the whole outcome. -/
theorem crawl_deterministic_witness :
    crawlRun testCfg testEnv 10 "http://example.com" =
      crawlRun testCfg testEnvCopy 10 "http://example.com" :=
  crawl_deterministic testCfg testCfg testEnv testEnvCopy 10
    "http://example.com" rfl rfl rfl (fun _ => rfl) (fun _ _ => rfl)
    (fun _ => rfl) (fun _ => rfl)

/-! ## C8 -/

/-- A `try` block on a URL whose netloc parses appends at least one
record. -/
theorem tryBlock_records_lower (cfg : CrawlerConfig) (env : CrawlEnv)
    (u : String) (d : Nat) (st : CrawlerState)
    (hp : urlparseRaises u = false) :
    st.stats.results.length + 1 ≤
      (outState (tryBlock cfg env u d st)).stats.results.length := by
  cases hf : env.fetch u with
  | none =>
    rw [tryBlock_fetch_raise cfg env u d st hf, exceptBlock_ok st u hp]
    simp [outState, CrawlStats.record]
  | some page =>
    rw [tryBlock_page_ok cfg env u d st page hf hp]
    by_cases hc : d < cfg.max_depth ∧ page.status_code = 200
    · rw [if_pos hc]
      obtain ⟨-, -, -, p4⟩ := processLinks_shape env u d page.hrefs
        { st with
          stats := st.stats.record u page.status_code page.content_length page.title }
      rcases p4 with p4 | p4 <;> rw [p4] <;> simp [CrawlStats.record]
    · rw [if_neg hc]
      simp [outState, CrawlStats.record]

/-- C8 (amended): the seed URL is fetched whatever its scheme — the
`startswith("http")` test applies only to discovered links, never to
the start URL — and when the seed's netloc parses, at least one
PageRecord is created, every created record carrying the seed URL; but
when the seed's netloc parse raises, the fetch is still attempted and
no PageRecord is created: the recording aborts the crawl. -/
theorem crawl_seed_fetched_regardless_of_scheme (cfg : CrawlerConfig)
    (env : CrawlEnv) (start_url : String) (a : Bool)
    (hE : is_allowed_domainE cfg start_url = .ok a)
    (hns : ¬ (a = false ∧ cfg.is_blacklisted env start_url = true)) :
    (outState (crawlStep cfg env (initState start_url))).fetched
      = [start_url] ∧
    (urlparseRaises start_url = false →
      ((outState (crawlStep cfg env (initState start_url))).stats.results.map
          PageRecord.url = [start_url] ∨
        (outState (crawlStep cfg env (initState start_url))).stats.results.map
          PageRecord.url = [start_url, start_url])) := by
  have hgo := crawlStep_go cfg env (initState start_url) start_url 0 [] a rfl
    (List.not_mem_nil _) (Nat.zero_le _) hE hns
  obtain ⟨t1, t2, t3, recs, t4, t5, t6⟩ := tryBlock_shape cfg env start_url 0
    ⟨start_url :: (initState start_url).visited, (initState start_url).stats,
      [], (initState start_url).fetched ++ [start_url]⟩
  constructor
  · rw [hgo, t2]
    rfl
  · intro hp
    have hlow := tryBlock_records_lower cfg env start_url 0
      ⟨start_url :: (initState start_url).visited, (initState start_url).stats,
        [], (initState start_url).fetched ++ [start_url]⟩ hp
    rw [t4] at hlow
    rw [hgo, t4]
    rcases recs with _ | ⟨r1, _ | ⟨r2, _ | ⟨r3, tl⟩⟩⟩
    · exfalso
      simp [initState, CrawlStats.init] at hlow
    · left
      have h1 := t5 r1 (List.mem_cons_self _ _)
      simp [initState, CrawlStats.init, h1]
    · right
      have h1 := t5 r1 (by simp)
      have h2 := t5 r2 (by simp)
      simp [initState, CrawlStats.init, h1, h2]
    · exfalso
      simp at t6

/-- Counterexample to C8 as stated: the seed `http://[bad` on the
default unrestricted configuration passes admission and the filter,
its fetch is attempted — yet no PageRecord is ever created: the
sentinel record raises and the crawl aborts. -/
theorem crawl_seed_record_abort_counterexample :
    (outState (crawlRun ⟨2, [], []⟩ testEnv 5 "http://[bad")).fetched
      = ["http://[bad"] ∧
    (outState (crawlRun ⟨2, [], []⟩ testEnv 5 "http://[bad")).stats.results
      = [] ∧
    isAborted (crawlRun ⟨2, [], []⟩ testEnv 5 "http://[bad") = true :=
  ⟨by decide, by decide, by decide⟩

/-- Witness for the amended C8: the non-HTTP start URL `ftp://x` is
still fetched and recorded on an unrestricted configuration. -/
theorem crawl_seed_fetched_regardless_of_scheme_witness :
    (is_allowed_domainE ⟨2, [], []⟩ "ftp://x" = .ok true ∧
      urlparseRaises "ftp://x" = false) ∧
    ((outState (crawlStep ⟨2, [], []⟩ testEnv (initState "ftp://x"))).fetched
        = ["ftp://x"] ∧
      ((outState (crawlStep ⟨2, [], []⟩ testEnv
            (initState "ftp://x"))).stats.results.map PageRecord.url
          = ["ftp://x"] ∨
        (outState (crawlStep ⟨2, [], []⟩ testEnv
            (initState "ftp://x"))).stats.results.map PageRecord.url
          = ["ftp://x", "ftp://x"])) :=
  ⟨⟨by decide, by decide⟩,
    ⟨(crawl_seed_fetched_regardless_of_scheme ⟨2, [], []⟩ testEnv "ftp://x"
        true (by decide) (by decide)).1,
      (crawl_seed_fetched_regardless_of_scheme ⟨2, [], []⟩ testEnv "ftp://x"
        true (by decide) (by decide)).2 (by decide)⟩⟩

/-! ## C9 -/

/-- A step never fetches or records a URL already in the visited set,
and never removes it from the visited set — abort or not. -/
theorem visited_blocks_crawlStep (cfg : CrawlerConfig) (env : CrawlEnv)
    (s : CrawlerState) (u : String) (h : u ∈ s.visited) :
    (outState (crawlStep cfg env s)).fetched.count u = s.fetched.count u ∧
    ((outState (crawlStep cfg env s)).stats.results.map PageRecord.url).count u
      = (s.stats.results.map PageRecord.url).count u ∧
    u ∈ (outState (crawlStep cfg env s)).visited := by
  obtain ⟨newly, recs, e1, e2, e3, e4, e5, e8, e6, e7⟩ := crawlStep_shape cfg env s
  have hun : u ∉ newly := fun hm => e3 u hm h
  refine ⟨?_, ?_, e6 u h⟩
  · rw [e1, List.count_append, List.count_eq_zero.2 hun]
    omega
  · rw [e2, List.map_append, List.count_append]
    have hz : (recs.map PageRecord.url).count u = 0 := by
      rw [List.count_eq_zero]
      intro hmem
      rcases List.mem_map.1 hmem with ⟨r, hr, rfl⟩
      exact hun (e4 r hr)
    rw [hz]
    omega

/-- The loop never fetches or records a URL already in the visited
set. -/
theorem visited_blocks_crawlLoop (cfg : CrawlerConfig) (env : CrawlEnv)
    (fuel : Nat) :
    ∀ (s : CrawlerState) (u : String), u ∈ s.visited →
      (outState (crawlLoop cfg env fuel s)).fetched.count u
        = s.fetched.count u ∧
      ((outState (crawlLoop cfg env fuel s)).stats.results.map
          PageRecord.url).count u
        = (s.stats.results.map PageRecord.url).count u ∧
      u ∈ (outState (crawlLoop cfg env fuel s)).visited := by
  induction fuel with
  | zero => intro s u h; exact ⟨rfl, rfl, h⟩
  | succ n ih =>
    intro s u h
    match hq : s.queue with
    | [] => rw [crawlLoop_nil cfg env (n + 1) s hq]; exact ⟨rfl, rfl, h⟩
    | x :: q =>
      rw [crawlLoop_succ cfg env n s x q hq]
      obtain ⟨s1, s2, s3⟩ := visited_blocks_crawlStep cfg env s u h
      cases hstep : crawlStep cfg env s with
      | error e =>
        rw [hstep] at s1 s2 s3
        exact ⟨s1, s2, s3⟩
      | ok st1 =>
        rw [hstep] at s1 s2 s3
        obtain ⟨l1, l2, l3⟩ := ih st1 u s3
        exact ⟨l1.trans s1, l2.trans s2, l3⟩

/-- C9: a URL dropped by the domain/extension filter has already been
inserted into the visited set, so for the whole rest of the run it is
never fetched nor recorded again; whereas a URL dequeued with depth
greater than `max_depth` is dropped without being inserted into the
visited set and with nothing else changed, leaving it fetchable at a
later admissible dequeue. -/
theorem crawl_visited_insertion_asymmetry (cfg : CrawlerConfig)
    (env : CrawlEnv) (s : CrawlerState) (u : String) (d : Nat)
    (rest : List (String × Nat)) (fuel : Nat)
    (hq : s.queue = (u, d) :: rest) :
    ((u ∉ s.visited ∧ d ≤ cfg.max_depth ∧ skips cfg env u = true) →
      crawlStep cfg env s
        = .ok { s with visited := u :: s.visited, queue := rest } ∧
      (outState (crawlLoop cfg env fuel s)).fetched.count u
        = s.fetched.count u ∧
      ((outState (crawlLoop cfg env fuel s)).stats.results.map
          PageRecord.url).count u
        = (s.stats.results.map PageRecord.url).count u) ∧
    (cfg.max_depth < d →
      crawlStep cfg env s = .ok { s with queue := rest }) := by
  constructor
  · rintro ⟨hv, hd, hsk⟩
    have hstep := crawlStep_skip cfg env s u d rest hq hv hd hsk
    refine ⟨hstep, ?_⟩
    cases fuel with
    | zero => exact ⟨rfl, rfl⟩
    | succ n =>
      rw [crawlLoop_succ cfg env n s (u, d) rest hq, hstep]
      have hmem : u ∈
          ({ s with visited := u :: s.visited, queue := rest } : CrawlerState).visited :=
        List.mem_cons_self _ _
      obtain ⟨l1, l2, l3⟩ := visited_blocks_crawlLoop cfg env n _ u hmem
      exact ⟨l1, l2⟩
  · intro hdeep
    exact crawlStep_drop cfg env s u d rest hq (Or.inr hdeep)

/-- Witness for C9: on the example configuration, the filter-skipped
URL `http://other.com/file.png` is marked visited and never fetched or
recorded over the remaining run; the too-deep branch is exercised
vacuously. -/
theorem crawl_visited_insertion_asymmetry_witness :
    (("http://other.com/file.png" ∉ ([] : List String) ∧
        (0 : Nat) ≤ testCfg.max_depth ∧
        skips testCfg testEnv "http://other.com/file.png" = true) →
      crawlStep testCfg testEnv
          ⟨[], CrawlStats.init, [("http://other.com/file.png", 0)], []⟩
        = .ok ⟨["http://other.com/file.png"], CrawlStats.init, [], []⟩ ∧
      (outState (crawlLoop testCfg testEnv 10
          ⟨[], CrawlStats.init,
            [("http://other.com/file.png", 0)], []⟩)).fetched.count
          "http://other.com/file.png"
        = List.count "http://other.com/file.png" [] ∧
      ((outState (crawlLoop testCfg testEnv 10
          ⟨[], CrawlStats.init,
            [("http://other.com/file.png", 0)], []⟩)).stats.results.map
          PageRecord.url).count "http://other.com/file.png"
        = (List.map PageRecord.url CrawlStats.init.results).count
            "http://other.com/file.png") ∧
    (testCfg.max_depth < 0 →
      crawlStep testCfg testEnv
          ⟨[], CrawlStats.init, [("http://other.com/file.png", 0)], []⟩
        = .ok ⟨[], CrawlStats.init, [], []⟩) :=
  crawl_visited_insertion_asymmetry testCfg testEnv
    ⟨[], CrawlStats.init, [("http://other.com/file.png", 0)], []⟩
    "http://other.com/file.png" 0 [] 10 rfl

/-! ## C10 -/

end Crawler
